import Mathlib

/-
Verification of the GraphLab community-detection script
(src/main/python/nl/tudelft/graphalytics/graphlab/cd/CommunityDetection.py).

Modelling choices:
* Vertex keys are integers (the loader parses them with `column_type_hints=long`).
* Python floats (`score`, `weighted_score`, `hop_attenuation`) are modelled as
  rationals; the algorithm only compares, multiplies and subtracts them.
* The real-valued power `x['edges'] ** node_preference` is modelled by an
  abstract function `npPow : Nat -> Rat` (for `node_preference = 0` it is the
  constant function 1, since in Python `e ** 0.0 == 1.0` for every `e`).
* GraphLab Create's `SGraph` is structurally immutable: `add_edges` returns a
  new graph and never mutates its receiver (every other call site in the
  script reassigns its result, e.g. `graph = gl.SGraph().add_edges(...)` and
  `graph = graph.triple_apply(...)`).  The loader's second call
  `graph.add_edges(graph_data, src_field='X2', dst_field='X1')` discards the
  returned graph, and the embedding reproduces that.
* `triple_apply` is modelled as a sequential left fold over the directed edge
  list: for each edge the update function receives copies of the current
  states of the two endpoints and the returned states are written back
  (source first, then destination).  Updates committed by earlier edges are
  visible to later edges: this is required for `count_edges`
  (`src['edges'] += 1`) to accumulate a degree at all.
-/

namespace GraphLabCD

/-- State of one vertex: the attribute columns the script creates
(`edges`, `label`, `score`, `weighted_score`). -/
structure VState where
  edges : Nat
  label : Int
  score : Rat
  weighted_score : Rat
  deriving DecidableEq, Repr

/-- The whole vertex table, as a total map from vertex key to its state.
Keys not occurring in any edge simply keep an inert state. -/
def VTable : Type := Int → VState

/-- A GraphLab `SGraph`: for this script only its directed edge list matters
(edges carry no payload attributes; `X1`/`X2` become `__src_id`/`__dst_id`). -/
structure SGraph where
  edgeList : List (Int × Int)
  deriving DecidableEq, Repr

/-- Model of `SGraph.add_edges`: returns a NEW graph with the given directed edges
appended; the receiver is not mutated (GraphLab `SGraph` is structurally
immutable). -/
def SGraph.add_edges (g : SGraph) (pairs : List (Int × Int)) : SGraph :=
  ⟨g.edgeList ++ pairs⟩

/-- The loader `load_graph_task`: builds the graph from the parsed `(X1, X2)` pairs.
First `graph = gl.SGraph().add_edges(graph_data, src_field='X1',
dst_field='X2')`; then, when `directed` is false, the source executes
`graph.add_edges(graph_data, src_field='X2', dst_field='X1')` WITHOUT
assigning the result, so the reversed edges are computed and dropped, exactly
as embedded here. -/
def load_graph_task (pairs : List (Int × Int)) (directed : Bool) : SGraph :=
  let graph := (SGraph.add_edges ⟨[]⟩ pairs)
  if !directed then
    let _discarded := graph.add_edges (pairs.map (fun p => (p.2, p.1)))
    graph
  else
    graph

/-- The hypothetical in-place reading of the loader, following the spec's
words: Modelled from the spec: "if `directed` is false, also inserts the
reverse edge for each pair".  Used only to compare with `load_graph_task`. -/
def load_graph_spec (pairs : List (Int × Int)) (directed : Bool) : SGraph :=
  if directed then ⟨pairs⟩
  else ⟨pairs ++ pairs.map (fun p => (p.2, p.1))⟩

/-- One edge of a `triple_apply` pass: the update function gets the current
states of the two endpoints and its results are committed, source first and
destination second (so for a self-loop the destination write is the one that
survives). -/
def tripleApplyStep (f : VState → VState → VState × VState)
    (vs : VTable) (e : Int × Int) : VTable :=
  let p := f (vs e.1) (vs e.2)
  fun k => if k = e.2 then p.2 else if k = e.1 then p.1 else vs k

/-- Model of `graph.triple_apply(f, mutated_fields)`: invoke `f` once per directed
edge, in edge-list order, committing the mutated endpoint states as it goes. -/
def tripleApply (f : VState → VState → VState × VState)
    (es : List (Int × Int)) (vs : VTable) : VTable :=
  es.foldl (tripleApplyStep f) vs

/-- The update `count_edges(src, edge, dst)`: `src['edges'] += 1; dst['edges'] += 1`. -/
def count_edges (src dst : VState) : VState × VState :=
  ({ src with edges := src.edges + 1 }, { dst with edges := dst.edges + 1 })

/-- The update `community_detection_propagate(src, edge, dst)`: first the outgoing edge
(`if dst['score'] < src['weighted_score']` then overwrite `dst`'s label and
score), then the incoming edge (`if src['score'] < dst['weighted_score']`
then overwrite `src`'s label and score).  The second branch reads
`dst['label']` AFTER the first branch may have mutated it, exactly as the
Python statements execute in order on the mutable dicts. -/
def community_detection_propagate (hop_attenuation : Rat)
    (src dst : VState) : VState × VState :=
  let dst1 :=
    if dst.score < src.weighted_score then
      { dst with label := src.label, score := src.weighted_score - hop_attenuation }
    else dst
  let src1 :=
    if src.score < dst1.weighted_score then
      { src with label := dst1.label, score := dst1.weighted_score - hop_attenuation }
    else src
  (src1, dst1)

/-- Attribute creation `graph.vertices['edges'] = 0` and the later ones are
applied to the raw vertex table; attributes not yet created are inert 0. -/
def initialTable : VTable := fun _ => ⟨0, 0, 0, 0⟩

/-- The degree pass plus label initialisation, lines 93-97 of the script:
`graph.vertices['edges'] = 0`, `graph = graph.triple_apply(count_edges, ...)`,
`graph.vertices['label'] = graph.vertices['__id'].apply(lambda x: x)`. -/
def degreeLabelInit (es : List (Int × Int)) : VTable :=
  let g1 := tripleApply count_edges es initialTable
  fun k => { g1 k with label := k }

/-- Score reset, `graph.vertices['score'] = 1.0`. -/
def resetScores (vs : VTable) : VTable :=
  fun k => { vs k with score := 1 }

/-- Weighted scores, `graph.vertices['weighted_score'] = graph.vertices.apply(lambda x:
x['score'] * (x['edges'] ** node_preference))`, with `npPow e` standing for
`e ** node_preference`. -/
def computeWeighted (npPow : Nat → Rat) (vs : VTable) : VTable :=
  fun k => { vs k with weighted_score := (vs k).score * npPow (vs k).edges }

/-- One iteration of the `while` loop body, lines 101-104: reset scores,
recompute weighted scores, run the propagation pass. -/
def roundStep (hop_attenuation : Rat) (npPow : Nat → Rat)
    (es : List (Int × Int)) (vs : VTable) : VTable :=
  tripleApply (community_detection_propagate hop_attenuation) es
    (computeWeighted npPow (resetScores vs))

/-- The `while iteration < max_iterations` loop with its explicit counter
(`iteration = 0; ...; iteration += 1`). -/
def cdLoop (step : VTable → VTable) (max_iterations iteration : Nat)
    (g : VTable) : VTable :=
  if iteration < max_iterations then
    cdLoop step max_iterations (iteration + 1) (step g)
  else g
termination_by max_iterations - iteration
decreasing_by omega

/-- The task body `community_detection_model(task)`: degree pass, label initialisation,
then the propagation loop. -/
def community_detection_model (hop_attenuation : Rat) (npPow : Nat → Rat)
    (max_iterations : Nat) (es : List (Int × Int)) : VTable :=
  cdLoop (roundStep hop_attenuation npPow es) max_iterations 0
    (degreeLabelInit es)

/-- Outcome of the top-level script. -/
inductive ScriptResult where
  | unsupportedMode
  | finished (out : VTable)

/-- The script's main flow after argument parsing: `if not edge_based:
... exit(2)` runs before `load_graph_task` or `community_detection_model`
are ever invoked; otherwise load the graph and run the model. -/
def script_main (pairs : List (Int × Int)) (directed edge_based : Bool)
    (hop_attenuation : Rat) (npPow : Nat → Rat) (max_iterations : Nat) :
    ScriptResult :=
  if !edge_based then
    ScriptResult.unsupportedMode
  else
    ScriptResult.finished
      (community_detection_model hop_attenuation npPow max_iterations
        (load_graph_task pairs directed).edgeList)

end GraphLabCD

namespace GraphLabCD

/-! ### Helper lemmas -/

/-- Unfolding the while loop: running it from counter `i` performs
`m - i` iterations of the body. -/
theorem cdLoop_eq_iterate (step : VTable → VTable) :
    ∀ (n m i : Nat), m - i = n → ∀ g, cdLoop step m i g = step^[n] g := by
  intro n
  induction n with
  | zero =>
    intro m i h g
    rw [cdLoop, if_neg (by omega)]
    rfl
  | succ k ih =>
    intro m i h g
    rw [cdLoop, if_pos (by omega), ih m (i + 1) (by omega),
      Function.iterate_succ_apply]

/-- A relational invariant carried through a `triple_apply` pass: if the
update function relates each input endpoint state to its output state, the
whole pass relates every vertex's old state to its new state. -/
theorem tripleApply_rel (f : VState → VState → VState × VState)
    (R : VState → VState → Prop)
    (hrefl : ∀ v, R v v) (htrans : ∀ a b c, R a b → R b c → R a c)
    (hf : ∀ s d, R s (f s d).1 ∧ R d (f s d).2) :
    ∀ (es : List (Int × Int)) (vs : VTable) (k : Int),
      R (vs k) (tripleApply f es vs k) := by
  intro es
  induction es with
  | nil => intro vs k; exact hrefl _
  | cons e rest ih =>
    intro vs k
    have hstep : R (vs k) (tripleApplyStep f vs e k) := by
      unfold tripleApplyStep
      by_cases h2 : k = e.2
      · subst h2; simp only [if_pos rfl]; exact (hf _ _).2
      · by_cases h1 : k = e.1
        · subst h1; simp only [if_neg h2, if_pos rfl]; exact (hf _ _).1
        · simp only [if_neg h2, if_neg h1]; exact hrefl _
    exact htrans _ _ _ hstep (ih (tripleApplyStep f vs e) k)

/-- One `count_edges` step on an edge with distinct endpoints adds 1 to the
`edges` attribute of each endpoint and changes nothing else. -/
theorem count_step_edges (vs : VTable) (e : Int × Int) (hne : e.1 ≠ e.2)
    (k : Int) :
    (tripleApplyStep count_edges vs e k).edges
      = (vs k).edges + (if e.1 = k then 1 else 0)
        + (if e.2 = k then 1 else 0) := by
  simp only [tripleApplyStep, count_edges]
  by_cases h2 : k = e.2
  · rw [if_pos h2, if_neg (fun hc : e.1 = k => hne (hc.trans h2)),
      if_pos h2.symm, h2]
  · by_cases h1 : k = e.1
    · rw [if_neg h2, if_pos h1, if_pos h1.symm,
        if_neg (fun hc : e.2 = k => h2 hc.symm), h1]
    · rw [if_neg h2, if_neg h1, if_neg (fun hc : e.1 = k => h1 hc.symm),
        if_neg (fun hc : e.2 = k => h2 hc.symm)]
      omega

/-- The degree-counting fold: on an edge list without self-loops, each edge
adds 1 to the `edges` attribute of its source and 1 to that of its
destination. -/
theorem count_edges_fold :
    ∀ (es : List (Int × Int)), (∀ e ∈ es, e.1 ≠ e.2) →
      ∀ (vs : VTable) (k : Int),
        (tripleApply count_edges es vs k).edges
          = (vs k).edges + es.countP (fun e => e.1 = k)
            + es.countP (fun e => e.2 = k) := by
  intro es
  induction es with
  | nil => intro _ vs k; simp [tripleApply]
  | cons e rest ih =>
    intro h vs k
    have hne : e.1 ≠ e.2 := h e (List.mem_cons_self e rest)
    have hrest : ∀ e' ∈ rest, e'.1 ≠ e'.2 :=
      fun e' he' => h e' (List.mem_cons_of_mem e he')
    have hfold : tripleApply count_edges (e :: rest) vs
        = tripleApply count_edges rest (tripleApplyStep count_edges vs e) := rfl
    rw [hfold, ih hrest, count_step_edges vs e hne k,
      List.countP_cons, List.countP_cons]
    simp only [decide_eq_true_eq]
    by_cases h1 : e.1 = k <;> by_cases h2 : e.2 = k <;>
      simp [h1, h2] <;> omega

end GraphLabCD

namespace GraphLabCD

/-! ### Claim theorems -/

/-- C5: the propagation loop body executes exactly `max_iterations` times
(the model is the `max_iterations`-fold iterate of the round body on the
graph produced by the degree pass), and with `max_iterations = 0` every
vertex's `label` still equals its own key. -/
theorem model_runs_exactly_max_iterations :
    (∀ (hop : Rat) (npPow : Nat → Rat) (es : List (Int × Int)) (m : Nat),
       community_detection_model hop npPow m es
         = (roundStep hop npPow es)^[m] (degreeLabelInit es)) ∧
    (∀ (hop : Rat) (npPow : Nat → Rat) (es : List (Int × Int)) (k : Int),
       (community_detection_model hop npPow 0 es k).label = k) := by
  constructor
  · intro hop npPow es m
    exact cdLoop_eq_iterate _ m m 0 (by omega) _
  · intro hop npPow es k
    unfold community_detection_model
    rw [cdLoop_eq_iterate _ 0 0 0 rfl]
    rfl

/-- C6: each round first resets every vertex's `score` to 1.0, then sets
every vertex's `weighted_score` to `score * edges ** node_preference`
(the freshly reset score times `npPow` of the vertex's edge count), and the
propagation pass of the round runs on exactly that table. -/
theorem round_resets_scores_then_weights :
    ∀ (hop : Rat) (npPow : Nat → Rat) (es : List (Int × Int)) (vs : VTable),
      roundStep hop npPow es vs
        = tripleApply (community_detection_propagate hop) es
            (computeWeighted npPow (resetScores vs)) ∧
      ∀ k : Int,
        (resetScores vs k).score = 1 ∧
        (computeWeighted npPow (resetScores vs) k).score = 1 ∧
        (computeWeighted npPow (resetScores vs) k).weighted_score
          = (resetScores vs k).score * npPow ((vs k).edges) := by
  intro hop npPow es vs
  exact ⟨rfl, fun k => ⟨rfl, rfl, rfl⟩⟩

/-- C8: with `edge_based = false` the script takes the
`if not edge_based: ... exit(2)` branch, producing the unsupported-mode
outcome before any graph is loaded or any graph work done. -/
theorem edge_based_false_fails_fast :
    ∀ (pairs : List (Int × Int)) (directed : Bool) (hop : Rat)
      (npPow : Nat → Rat) (m : Nat),
      script_main pairs directed false hop npPow m
        = ScriptResult.unsupportedMode :=
  fun _ _ _ _ _ => rfl

/-- C10: when both branch conditions hold on entry, the source vertex gets
back its own original label (the first branch overwrites `dst['label']`
with `src['label']` before the second branch reads it), so the endpoints
never swap labels in one invocation. -/
theorem propagate_never_swaps_labels :
    ∀ (hop : Rat) (src dst : VState),
      dst.score < src.weighted_score → src.score < dst.weighted_score →
      (community_detection_propagate hop src dst).1.label = src.label := by
  intro hop src dst h1 h2
  simp only [community_detection_propagate, if_pos h1]
  split
  · rfl
  · rfl

/-- Witness for C10 at a concrete input where both conditions hold. -/
theorem propagate_never_swaps_labels_witness :
    ((⟨0, 20, 0, 3⟩ : VState).score < (⟨0, 10, 0, 3⟩ : VState).weighted_score) ∧
    ((⟨0, 10, 0, 3⟩ : VState).score < (⟨0, 20, 0, 3⟩ : VState).weighted_score) ∧
    (community_detection_propagate 1 ⟨0, 10, 0, 3⟩ ⟨0, 20, 0, 3⟩).1.label
      = (10 : Int) := by
  have h03 : ((0 : Rat) < 3) := by norm_num
  exact ⟨h03, h03, propagate_never_swaps_labels 1 ⟨0, 10, 0, 3⟩ ⟨0, 20, 0, 3⟩ h03 h03⟩

/-- C2 fails on the code: for the input pair list `[(1, 2)]` with
`directed = false`, the loader's second `add_edges` call discards its
result, so the graph contains only `(1, 2)` and not the reverse edge
`(2, 1)`; the spec-faithful loader would contain both. -/
theorem load_graph_task_drops_reverse_edges :
    (load_graph_task [(1, 2)] false).edgeList = [((1 : Int), (2 : Int))] ∧
    ((2 : Int), (1 : Int)) ∉ (load_graph_task [(1, 2)] false).edgeList ∧
    ((1 : Int), (2 : Int)) ∈ (load_graph_spec [(1, 2)] false).edgeList ∧
    ((2 : Int), (1 : Int)) ∈ (load_graph_spec [(1, 2)] false).edgeList := by
  decide

end GraphLabCD

namespace GraphLabCD

/-- C9: a propagation invocation leaves the `edges` and `weighted_score`
attributes of both endpoints unchanged (only `label` and `score` are ever
written), and the whole propagation pass leaves every vertex's `edges` and
`weighted_score` unchanged. -/
theorem propagate_frame_condition :
    (∀ (hop : Rat) (src dst : VState),
       (community_detection_propagate hop src dst).1.edges = src.edges ∧
       (community_detection_propagate hop src dst).1.weighted_score
         = src.weighted_score ∧
       (community_detection_propagate hop src dst).2.edges = dst.edges ∧
       (community_detection_propagate hop src dst).2.weighted_score
         = dst.weighted_score) ∧
    (∀ (hop : Rat) (es : List (Int × Int)) (vs : VTable) (k : Int),
       (tripleApply (community_detection_propagate hop) es vs k).edges
         = (vs k).edges ∧
       (tripleApply (community_detection_propagate hop) es vs k).weighted_score
         = (vs k).weighted_score) := by
  have hone : ∀ (hop : Rat) (src dst : VState),
      (community_detection_propagate hop src dst).1.edges = src.edges ∧
      (community_detection_propagate hop src dst).1.weighted_score
        = src.weighted_score ∧
      (community_detection_propagate hop src dst).2.edges = dst.edges ∧
      (community_detection_propagate hop src dst).2.weighted_score
        = dst.weighted_score := by
    intro hop src dst
    simp only [community_detection_propagate]
    split <;> split <;> exact ⟨rfl, rfl, rfl, rfl⟩
  refine ⟨hone, ?_⟩
  intro hop es vs k
  have h := tripleApply_rel (community_detection_propagate hop)
    (fun v w => v.edges = w.edges ∧ v.weighted_score = w.weighted_score)
    (fun _ => ⟨rfl, rfl⟩)
    (fun _ _ _ hab hbc => ⟨hab.1.trans hbc.1, hab.2.trans hbc.2⟩)
    (fun s d =>
      ⟨⟨(hone hop s d).1.symm, (hone hop s d).2.1.symm⟩,
       ⟨(hone hop s d).2.2.1.symm, (hone hop s d).2.2.2.symm⟩⟩)
    es vs k
  exact ⟨h.1.symm, h.2.symm⟩

/-- C7: a propagation invocation either leaves an endpoint's score alone or
assigns exactly the other endpoint's `weighted_score` minus the hop
attenuation (hence every assigned value is at most that bound); and with
`hop_attenuation = 0` no vertex's score decreases across a whole
propagation pass. -/
theorem propagate_score_decay :
    (∀ (hop : Rat) (src dst : VState),
       ((community_detection_propagate hop src dst).2.score = dst.score ∨
        (community_detection_propagate hop src dst).2.score
          = src.weighted_score - hop) ∧
       ((community_detection_propagate hop src dst).1.score = src.score ∨
        (community_detection_propagate hop src dst).1.score
          = dst.weighted_score - hop)) ∧
    (∀ (es : List (Int × Int)) (vs : VTable) (k : Int),
       (vs k).score
         ≤ (tripleApply (community_detection_propagate 0) es vs k).score) := by
  constructor
  · intro hop src dst
    by_cases hd : dst.score < src.weighted_score <;>
      by_cases hs : src.score < dst.weighted_score <;>
        simp [community_detection_propagate, hd, hs]
  · intro es vs k
    refine tripleApply_rel (community_detection_propagate 0)
      (fun v w => v.score ≤ w.score) (fun _ => le_refl _)
      (fun _ _ _ hab hbc => le_trans hab hbc) ?_ es vs k
    intro s d
    by_cases hd : d.score < s.weighted_score
    · by_cases hs : s.score < d.weighted_score
      · constructor
        · simp [community_detection_propagate, hd, hs]
          exact le_of_lt hs
        · simp [community_detection_propagate, hd, hs]
          exact le_of_lt hd
      · constructor
        · simp [community_detection_propagate, hd, hs]
        · simp [community_detection_propagate, hd, hs]
          exact le_of_lt hd
    · by_cases hs : s.score < d.weighted_score
      · constructor
        · simp [community_detection_propagate, hd, hs]
          exact le_of_lt hs
        · simp [community_detection_propagate, hd, hs]
      · constructor
        · simp [community_detection_propagate, hd, hs]
        · simp [community_detection_propagate, hd, hs]

end GraphLabCD

namespace GraphLabCD

/-- C1 as stated is false: at this input both branch conditions hold
(`1/2 < 2` on each side), and the second branch assigns to `src` the label
10 that the first branch just wrote into `dst`, not `dst`'s pre-update
label 20. -/
theorem propagate_pre_update_label_counterexample :
    ((⟨0, 20, 1/2, 2⟩ : VState).score
        < (⟨0, 10, 1/2, 2⟩ : VState).weighted_score) ∧
    ((⟨0, 10, 1/2, 2⟩ : VState).score
        < (⟨0, 20, 1/2, 2⟩ : VState).weighted_score) ∧
    (community_detection_propagate (1/10) ⟨0, 10, 1/2, 2⟩
        ⟨0, 20, 1/2, 2⟩).1.label = 10 ∧
    (community_detection_propagate (1/10) ⟨0, 10, 1/2, 2⟩
        ⟨0, 20, 1/2, 2⟩).1.label ≠ (⟨0, 20, 1/2, 2⟩ : VState).label := by
  refine ⟨by norm_num, by norm_num, ?_, ?_⟩ <;>
    norm_num [community_detection_propagate]

/-- C1 amended: the `dst`-side branch behaves as claimed with pre-update
values; on the `src` side the check still uses the pre-update `score` of
`src` and the pre-update `weighted_score` of `dst`, and the assigned score
is `dst`'s pre-update `weighted_score` minus the attenuation, but the label
assigned to `src` is `dst`'s CURRENT label: `src`'s own pre-update label
when the first branch fired, `dst`'s pre-update label otherwise. -/
theorem propagate_branch_semantics :
    ∀ (hop : Rat) (src dst : VState),
      (dst.score < src.weighted_score →
        (community_detection_propagate hop src dst).2.label = src.label ∧
        (community_detection_propagate hop src dst).2.score
          = src.weighted_score - hop) ∧
      (¬ dst.score < src.weighted_score →
        (community_detection_propagate hop src dst).2 = dst) ∧
      (src.score < dst.weighted_score →
        (community_detection_propagate hop src dst).1.score
          = dst.weighted_score - hop ∧
        (community_detection_propagate hop src dst).1.label
          = (if dst.score < src.weighted_score then src.label
             else dst.label)) ∧
      (¬ src.score < dst.weighted_score →
        (community_detection_propagate hop src dst).1 = src) := by
  intro hop src dst
  by_cases hd : dst.score < src.weighted_score <;>
    by_cases hs : src.score < dst.weighted_score <;>
      simp [community_detection_propagate, hd, hs]

/-- Witness for C1's amended claim at a concrete input on which both
branches fire. -/
theorem propagate_branch_semantics_witness :
    ((⟨0, 21, 1/2, 2⟩ : VState).score
        < (⟨0, 11, 1/2, 2⟩ : VState).weighted_score) ∧
    ((⟨0, 11, 1/2, 2⟩ : VState).score
        < (⟨0, 21, 1/2, 2⟩ : VState).weighted_score) ∧
    (community_detection_propagate (1/10) ⟨0, 11, 1/2, 2⟩
        ⟨0, 21, 1/2, 2⟩).2.label = 11 ∧
    (community_detection_propagate (1/10) ⟨0, 11, 1/2, 2⟩
        ⟨0, 21, 1/2, 2⟩).1.score = (2 : Rat) - 1/10 := by
  have hhalf : ((1 : Rat)/2) < 2 := by norm_num
  have h := propagate_branch_semantics (1/10) ⟨0, 11, 1/2, 2⟩ ⟨0, 21, 1/2, 2⟩
  exact ⟨hhalf, hhalf, (h.1 hhalf).1, (h.2.2.1 hhalf).1⟩

end GraphLabCD

namespace GraphLabCD

/-- C3 as stated fails on a self-loop: for the one-edge graph `[(1, 1)]`
vertex 1 is both source and destination, so the claim demands
`edges[1] = 2`, but the two per-edge writes of `count_edges` both start
from the snapshot value 0 and propose 1, and only one committed write
survives, leaving `edges[1] = 1`. -/
theorem degree_pass_self_loop_counterexample :
    (tripleApply count_edges [((1 : Int), (1 : Int))] initialTable 1).edges
      = 1 := by
  decide

/-- C3 amended: provided no edge of the materialized graph is a self-loop,
after the degree pass every vertex's `edges` equals the number of directed
edges having it as source plus the number having it as destination, each
such edge contributing exactly 1 per endpoint. -/
theorem degree_pass_counts_incidences :
    ∀ (es : List (Int × Int)), (∀ e ∈ es, e.1 ≠ e.2) →
      ∀ k : Int,
        (degreeLabelInit es k).edges
          = es.countP (fun e => e.1 = k) + es.countP (fun e => e.2 = k) := by
  intro es h k
  show (tripleApply count_edges es initialTable k).edges = _
  rw [count_edges_fold es h initialTable k]
  simp [initialTable]

/-- Witness for C3's amended claim on the two-edge graph `[(1,2),(2,3)]`. -/
theorem degree_pass_counts_incidences_witness :
    (∀ e ∈ [((1 : Int), (2 : Int)), (2, 3)], e.1 ≠ e.2) ∧
    (degreeLabelInit [((1 : Int), (2 : Int)), (2, 3)] 2).edges
      = [((1 : Int), (2 : Int)), (2, 3)].countP (fun e => e.1 = 2)
        + [((1 : Int), (2 : Int)), (2, 3)].countP (fun e => e.2 = 2) :=
  ⟨by decide,
   degree_pass_counts_incidences [((1 : Int), (2 : Int)), (2, 3)] (by decide) 2⟩

end GraphLabCD

namespace GraphLabCD

set_option maxHeartbeats 1000000 in
/-- C4's scenario on the code: loading `{(1,2),(2,3)}` with
`directed = false` materializes only the two forward edges (the reverse
edges are discarded, see `load_graph_task`), so the degree pass yields
`edges = (1, 2, 1)` instead of the claimed `(2, 4, 2)`; on the spec-faithful
four-edge materialization the claimed `(2, 4, 2)` does hold.  The claim's
no-propagation part holds on both graphs: with `nodePreference = 0` and
`hopAttenuation = 1/10`, after one round every label still equals its own
key, because `1.0 < 1.0` is false under the strict comparison. -/
theorem example_scenario_evaluation :
    (load_graph_task [(1, 2), (2, 3)] false).edgeList
      = [((1 : Int), (2 : Int)), (2, 3)] ∧
    ((degreeLabelInit [((1 : Int), (2 : Int)), (2, 3)] 1).edges = 1 ∧
     (degreeLabelInit [((1 : Int), (2 : Int)), (2, 3)] 2).edges = 2 ∧
     (degreeLabelInit [((1 : Int), (2 : Int)), (2, 3)] 3).edges = 1) ∧
    ((degreeLabelInit [((1 : Int), (2 : Int)), (2, 3), (2, 1), (3, 2)] 1).edges = 2 ∧
     (degreeLabelInit [((1 : Int), (2 : Int)), (2, 3), (2, 1), (3, 2)] 2).edges = 4 ∧
     (degreeLabelInit [((1 : Int), (2 : Int)), (2, 3), (2, 1), (3, 2)] 3).edges = 2) ∧
    ((community_detection_model (1/10) (fun _ => 1) 1
        [((1 : Int), (2 : Int)), (2, 3)] 1).label = 1 ∧
     (community_detection_model (1/10) (fun _ => 1) 1
        [((1 : Int), (2 : Int)), (2, 3)] 2).label = 2 ∧
     (community_detection_model (1/10) (fun _ => 1) 1
        [((1 : Int), (2 : Int)), (2, 3)] 3).label = 3) ∧
    ((community_detection_model (1/10) (fun _ => 1) 1
        [((1 : Int), (2 : Int)), (2, 3), (2, 1), (3, 2)] 1).label = 1 ∧
     (community_detection_model (1/10) (fun _ => 1) 1
        [((1 : Int), (2 : Int)), (2, 3), (2, 1), (3, 2)] 2).label = 2 ∧
     (community_detection_model (1/10) (fun _ => 1) 1
        [((1 : Int), (2 : Int)), (2, 3), (2, 1), (3, 2)] 3).label = 3) := by
  refine ⟨by decide, by decide, by decide, ?_, ?_⟩
  · have h : community_detection_model (1/10) (fun _ => 1) 1
        [((1 : Int), (2 : Int)), (2, 3)]
        = roundStep (1/10) (fun _ => 1) [((1 : Int), (2 : Int)), (2, 3)]
            (degreeLabelInit [((1 : Int), (2 : Int)), (2, 3)]) := by
      show cdLoop _ 1 0 _ = _
      rw [cdLoop_eq_iterate _ 1 1 0 rfl]
      rfl
    rw [h]
    norm_num [roundStep, tripleApply, tripleApplyStep,
      community_detection_propagate, computeWeighted, resetScores,
      degreeLabelInit, count_edges, initialTable]
  · have h : community_detection_model (1/10) (fun _ => 1) 1
        [((1 : Int), (2 : Int)), (2, 3), (2, 1), (3, 2)]
        = roundStep (1/10) (fun _ => 1)
            [((1 : Int), (2 : Int)), (2, 3), (2, 1), (3, 2)]
            (degreeLabelInit [((1 : Int), (2 : Int)), (2, 3), (2, 1), (3, 2)]) := by
      show cdLoop _ 1 0 _ = _
      rw [cdLoop_eq_iterate _ 1 1 0 rfl]
      rfl
    rw [h]
    norm_num [roundStep, tripleApply, tripleApplyStep,
      community_detection_propagate, computeWeighted, resetScores,
      degreeLabelInit, count_edges, initialTable]

end GraphLabCD
